import Mathlib

/- Verification development for the bp-release-cycle build system.

The repository consists of a build-orchestration shell script
(`build-complete.sh`, shipped as src/unnamed/part_000) and a Grunt
configuration extension (`Gruntfile-enhanced.js`).  This file gives a
shallow embedding of both:

* the shell pipeline is modelled as a sequential state transformer over an
  abstract filesystem state `St`, with all external commands (npm, composer,
  grunt, wp-cli, zip, the validation script) represented by oracle fields of
  an environment record `Env` recording their exit codes and filesystem
  effects; `set -e` is modelled by threading `Except (Nat × St) St`, where an
  `error` carries the non-zero exit code and the state at abort time;
* the Gruntfile's `compress` targets and its `archive()` version callbacks
  are modelled as pure functions on file listings;
* Info-ZIP `-x` exclusion patterns and grunt/minimatch globs are modelled by
  executable matchers over character lists and path-segment lists.

Files and directory trees are modelled as lists of relative path strings.
Colored-output escape codes and purely decorative echo lines of the script
are not part of the model; the diagnostic messages that decide outcomes are
kept verbatim (minus color codes and symbol prefixes) in a log field.
-/

namespace BPRelease

/-! ## Character-list utilities -/

/-- Boolean prefix test on character lists. -/
def prefB : List Char → List Char → Bool
  | [], _ => true
  | _ :: _, [] => false
  | a :: as, b :: bs => a = b && prefB as bs

/-- Boolean contiguous-substring test (`grep`-style containment). -/
def hasSub : List Char → List Char → Bool
  | n, [] => prefB n []
  | n, c :: cs => prefB n (c :: cs) || hasSub n cs

/-! ## Info-ZIP / shell glob matching

Info-ZIP `-x` patterns (no `-W`): `*` matches any character sequence,
including `/`; a backslash escapes the following character.  The same
matcher serves bash filename globs on plain file names (which contain no
`/`, so the `*`-crosses-`/` difference is immaterial there). -/

/-- One glob token: a wildcard or one literal character to match. -/
inductive GTok where
  | star : GTok
  | lit : Char → GTok
deriving DecidableEq

/-- Tokenize a pattern: `*` is the wildcard, a backslash escapes the next
character, anything else matches itself (a trailing lone backslash is a
literal backslash). -/
def gtokens : List Char → List GTok
  | [] => []
  | '\\' :: c :: rest => .lit c :: gtokens rest
  | '\\' :: [] => [.lit '\\']
  | '*' :: rest => .star :: gtokens rest
  | c :: rest => .lit c :: gtokens rest

/-- Match a token list against a character list; `star` may absorb any
suffix boundary, i.e. the rest of the pattern must match some tail. -/
def gmatch : List GTok → List Char → Bool
  | [], s => s.isEmpty
  | .star :: ps, s => s.tails.any (gmatch ps)
  | .lit _ :: _, [] => false
  | .lit p :: ps, c :: cs => (p = c) && gmatch ps cs

def globMatch (p s : List Char) : Bool := gmatch (gtokens p) s

/-- Does `name` match any pattern of the exclusion list? -/
def zipExcluded (pats : List String) (name : String) : Bool :=
  pats.any (fun p => globMatch p.data name.data)

/-! ## grunt / minimatch glob matching over path segments

Grunt `src` globs are minimatch patterns: within one path segment `*`
matches any character run (never `/`), and a `**` segment matches zero or
more whole segments.  Paths on the grunt side are modelled as lists of
segments. -/

/-- One minimatch pattern segment: the globstar or an in-segment glob. -/
inductive MTok where
  | dstar : MTok
  | seg : String → MTok
deriving DecidableEq

def mtokens (p : List String) : List MTok :=
  p.map (fun q => if q = "**" then .dstar else .seg q)

/-- Match tokenized segments: `dstar` matches zero or more whole path
segments, `seg q` matches exactly one segment via the in-segment glob. -/
def mmatch : List MTok → List String → Bool
  | [], segs => segs.isEmpty
  | .dstar :: ps, segs => segs.tails.any (mmatch ps)
  | .seg _ :: _, [] => false
  | .seg p :: ps, s :: ss => globMatch p.data s.data && mmatch ps ss

def mmMatch (p segs : List String) : Bool := mmatch (mtokens p) segs

/-! ## Shell version resolution (build-complete.sh lines 19-23)

`VERSION=$(grep "Version:" src/bp-loader.php | sed 's/.*Version:[ ]*//' |
sed 's/[ ]*$//')`, falling back to `bp-loader.php` when the result is
empty.  `grep` keeps every line containing `Version:`; the greedy first
`sed` deletes through the *last* `Version:` occurrence plus following
spaces; the second `sed` strips trailing spaces.  A missing file gives
empty output (the pipeline still exits 0 through `sed`, so `set -e` does
not fire).  Files are modelled as lists of lines. -/

/-- Suffix of `l` after the last occurrence of `Version:`, if any. -/
def sedVersionCore (l : List Char) : Option (List Char) :=
  match l with
  | [] => none
  | c :: cs =>
    match sedVersionCore cs with
    | some r => some r
    | none => if prefB ("Version:".data) (c :: cs) then some ((c :: cs).drop 8) else none

/-- Apply both `sed` substitutions of the script to one line. -/
def sedLine (line : String) : String :=
  match sedVersionCore line.data with
  | some r => (((r.dropWhile (fun c => c = ' ')).reverse.dropWhile (fun c => c = ' ')).reverse).asString
  | none => ((line.data.reverse.dropWhile (fun c => c = ' ')).reverse).asString

/-- `grep "Version:"`: the lines of the file containing the literal. -/
def grepVersion (lines : List String) : List String :=
  lines.filter (fun l => hasSub ("Version:".data) l.data)

/-- `grep | sed | sed` over one candidate file (`none` = file absent). -/
def shellVersionOf (file : Option (List String)) : String :=
  match file with
  | none => ""
  | some lines => String.intercalate "\n" ((grepVersion lines).map sedLine)

/-- The script's `VERSION`: `src/bp-loader.php` first, then `bp-loader.php`.
There is no further fallback; if neither file yields a match the result is
the empty string and the script continues with it. -/
def shellVersion (src root : Option (List String)) : String :=
  let v := shellVersionOf src
  if v = "" then shellVersionOf root else v

/-! ## Gruntfile version resolution (compress.production.options.archive)

```
var version = pkg.version || '11.5.1';
if (!version && grunt.file.exists('src/bp-loader.php')) { ... }
return 'buddypress-' + version + '.zip';
```
`pkg.version` absent or the empty string is falsy, so `||` substitutes the
constant; the subsequent `!version` test therefore never succeeds and the
bp-loader.php branch is unreachable.  The branch is still embedded
faithfully below. -/

/-- JavaScript `a || d` for an optional string `a` (falsy = absent or ""). -/
def jsFalsyOr (v : Option String) (d : String) : String :=
  match v with
  | some s => if s = "" then d else s
  | none => d

/-- JavaScript `\s` whitespace (the common members). -/
def jsSpace (c : Char) : Bool :=
  c = ' ' || c = '\t' || c = '\n' || c = '\r'

/-- Trim leading and trailing JS whitespace (String.prototype.trim). -/
def trimChars (l : List Char) : List Char :=
  ((l.dropWhile jsSpace).reverse.dropWhile jsSpace).reverse

/-- Suffix of the text after the first occurrence of `Version:`, if any. -/
def firstVersionSuffix : List Char → Option (List Char)
  | [] => none
  | c :: cs =>
    if prefB ("Version:".data) (c :: cs) then some ((c :: cs).drop 8)
    else firstVersionSuffix cs

/-- The capture group of `/Version:\s*(.+)/` on the whole file text:
skip whitespace after the literal, take the rest of that line. -/
def matchVersionCapture (txt : List Char) : Option (List Char) :=
  match firstVersionSuffix txt with
  | none => none
  | some rest =>
    let rest := rest.dropWhile jsSpace
    let cap := rest.takeWhile (fun c => c ≠ '\n')
    if cap.isEmpty then none else some cap

/-- The Gruntfile's production archive name.  `pkgVersion` is the
`version` field of package.json (`none` = field absent), `srcLoader` the
lines of src/bp-loader.php (`none` = file absent). -/
def gruntProdArchiveName (pkgVersion : Option String) (srcLoader : Option (List String)) : String :=
  let version := jsFalsyOr pkgVersion "11.5.1"
  let version :=
    if version = "" then
      match srcLoader with
      | some lines =>
        match matchVersionCapture (String.intercalate "\n" lines).data with
        | some cap => (trimChars cap).asString
        | none => version
      | none => version
    else version
  "buddypress-" ++ version ++ ".zip"

/-- The Gruntfile's development archive name (same `||` fallback,
no bp-loader branch at all). -/
def gruntDevArchiveName (pkgVersion : Option String) : String :=
  "buddypress-" ++ jsFalsyOr pkgVersion "11.5.1" ++ "-dev.zip"

/-! ## Gruntfile compress targets

`compress.production` archives `build/**/*` with `cwd: 'build/'` and
`dest: 'buddypress/'`: each file `f` of the build tree is stored as
`buddypress/f`.

`compress.development` archives `**/*` from the project root with
`dest: 'buddypress-dev/'` and the negated globs below; each included path
`p` (as segments) is stored as `buddypress-dev :: p`. -/

/-- Production target: entry name for each build file. -/
def grunt_prodEntries (buildFiles : List String) : List String :=
  buildFiles.map (fun f => "buddypress/" ++ f)

/-- The negated patterns of `compress.development.files.src`. -/
def grunt_devExcludes : List (List String) :=
  [["node_modules", "**"], ["build", "**"], ["*.zip"], [".git", "**"],
   [".svn", "**"], ["*.log"], [".DS_Store"], ["**", "Thumbs.db"]]

/-- Is a path (as segments) included by the development target's globs? -/
def grunt_devIncluded (p : List String) : Bool :=
  mmMatch ["**", "*"] p && !(grunt_devExcludes.any (fun pat => mmMatch pat p))

/-- The project files the development target keeps. -/
def grunt_devFiles (tree : List (List String)) : List (List String) :=
  tree.filter grunt_devIncluded

/-- Development target: stored entry names (nested under buddypress-dev). -/
def grunt_devEntries (tree : List (List String)) : List (List String) :=
  (grunt_devFiles tree).map (fun p => "buddypress-dev" :: p)

/-! ## The shell pipeline (build-complete.sh)

`Env` freezes one run's world: the initial filesystem facts the script
probes, and one oracle per external command giving its exit code and its
filesystem effect.  `St` is the evolving filesystem/report state.  Each
`step<n>` mirrors the script's Step n; `run` chains them with
`Except (Nat × St) St`, whose `error` constructor models `set -e` aborting
with a non-zero exit code (the `Nat`) in the given state. -/

structure Env where
  /-- Lines of `src/bp-loader.php` (`none` = file absent). -/
  srcLoader : Option (List String) := none
  /-- Lines of `bp-loader.php` at the project root. -/
  rootLoader : Option (List String) := none
  /-- package.json `version` field, read by the Gruntfile's archive(). -/
  pkgVersion : Option String := none
  /-- Files under `src/`, as paths relative to `src/`. -/
  srcFiles : List String := []
  /-- `readme.txt` present at the project root? -/
  readmeTxt : Bool := false
  /-- `README.md` present at the project root? -/
  readmeMd : Bool := false
  /-- `license.txt` present at the project root? -/
  licenseTxt : Bool := false
  /-- `node_modules` directory present (Step 1 probe)? -/
  nodeModules : Bool := true
  /-- Exit code of `npm install` (Step 1). -/
  npmInstallCode : Nat := 0
  /-- `node_modules/grunt-contrib-compress` present (Step 3 probe)? -/
  compressPlugin : Bool := true
  /-- Exit code of `npm install grunt-contrib-compress --save-dev`. -/
  npmCompressCode : Nat := 0
  /-- `vendor` directory with `vendor/bin/phpcs` present? -/
  vendorPhpcs : Bool := false
  /-- `composer` found on PATH? -/
  composer : Bool := false
  /-- Exit code of `composer install`. -/
  composerCode : Nat := 0
  /-- Exit code of `npx grunt --gruntfile Gruntfile-enhanced.js build-zip`. -/
  gruntCode : Nat := 0
  /-- Contents of `build/` left by the delegated grunt build
  (`none` = directory absent). -/
  gruntBuild : Option (List String) := none
  /-- Did grunt's compress:production task produce its archive? -/
  gruntMadeZip : Bool := false
  /-- Exit codes of the four fallback grunt tasks of Step 4. -/
  fbCleanCode : Nat := 0
  fbCopyCode : Nat := 0
  fbUglifyCode : Nat := 0
  fbCssminCode : Nat := 0
  /-- Contents of `build/` after the fallback tasks and `npm run build`. -/
  fbBuild : Option (List String) := none
  /-- WP-CLI found (Local path or PATH)? -/
  wpCli : Bool := false
  /-- Did `wp i18n make-pot build "$TEMP_POT" ...` create the temp POT? -/
  wpPotTemp : Bool := false
  /-- Did the direct `wp i18n make-pot build build/buddypress.pot` work? -/
  wpPotDirect : Bool := false
  /-- Exit code of the manual `zip -r ../$ZIP_NAME buddypress ...`. -/
  zipCode : Nat := 0
  /-- Exit code of `zip -r $DEV_ZIP_NAME . ...`. -/
  devZipCode : Nat := 0
  /-- The project-root tree the development zip walks (relative paths). -/
  rootListing : List String := []
  /-- `validate-build.sh` present? -/
  validateScript : Bool := false
  /-- Exit code of `./validate-build.sh`. -/
  validateCode : Nat := 0
  /-- `build/` contents when the script starts (wiped by Step 2). -/
  initialBuild : Option (List String) := none
  /-- Names of zip files present when the script starts. -/
  initialZips : List String := []

structure St where
  /-- The resolved `$VERSION` (set once, before Step 1). -/
  version : String
  /-- Contents of `build/` (`none` = directory absent). -/
  build : Option (List String)
  /-- Zip archives on disk: file name and stored entry names. -/
  zips : List (String × List String)
  /-- Has `cp -r src/* build/` (the degraded reconstruction) run? -/
  copiedSrc : Bool
  /-- Diagnostic messages emitted so far (most recent first). -/
  log : List String
deriving DecidableEq

/-- Diagnostics the script prints at decision points (color codes and the
leading symbols of the originals omitted). -/
def composerMsg : String := "ERROR: Composer not found!"

def fallbackMsg : String := "Build directory empty. Attempting fallback build..."

def copyMsg : String := "Creating build from source directory..."

def wpSkipMsg : String := "WP-CLI not found - skipping POT file generation"

def potFailMsg : String := "POT file generation failed - will need manual generation"

def valPassMsg : String := "BUILD VALIDATION PASSED"

def valWarnMsg : String := "BUILD VALIDATION HAD WARNINGS"

def valSkipMsg : String := "Validation script not found - skipping validation"

/-- `buddypress-${VERSION}.zip`. -/
def zipName (v : String) : String := "buddypress-" ++ v ++ ".zip"

/-- `buddypress-${VERSION}-dev.zip`. -/
def devZipName (v : String) : String := "buddypress-" ++ v ++ "-dev.zip"

/-- Does a file name match the Step 2 clean glob `buddypress-*.zip`? -/
def matchesZipGlob (n : String) : Bool :=
  globMatch ("buddypress-*.zip".data) n.data

/-- Zip files surviving `rm -f buddypress-*.zip`. -/
def cleanZips (zs : List (String × List String)) : List (String × List String) :=
  zs.filter (fun z => !(matchesZipGlob z.1))

/-- `[ ! -d build ] || [ -z "$(ls -A build)" ]`: missing or empty. -/
def emptyish : Option (List String) → Bool
  | none => true
  | some l => l.isEmpty

/-- Does a file name begin with a dot?  (bash `*` globs skip these.) -/
def isDotName (p : String) : Bool := prefB (".".data) p.data

/-- The files `cp -r src/*` actually copies: the bash glob `src/*` skips
top-level dot entries (files under a matched directory all come along). -/
def visibleSrc (env : Env) : List String :=
  env.srcFiles.filter (fun p => !(isDotName p))

/-- Exclusions of the manual production zip
(`-x "*.DS_Store" "*/\.*" "*.git*" "*.svn*"`; the shell passes the
backslash through, and zip reads it as an escape). -/
def prodExcl : List String := ["*.DS_Store", "*/\\.*", "*.git*", "*.svn*"]

/-- Exclusions of the development zip (Step 7). -/
def devExcl : List String :=
  ["*.DS_Store", "*/\\.*", "*.git*", "*.svn*", "node_modules/*", "build/*", "*.zip"]

/-- Entries of the manual production zip: `cp -r build/*` copies the
glob-visible build files under `buddypress/`, then zip stores that folder
minus the exclusions. -/
def manualZipEntries (buildFiles : List String) : List String :=
  (grunt_prodEntries (buildFiles.filter (fun f => !(isDotName f)))).filter
    (fun e => !(zipExcluded prodExcl e))

/-- State before Step 1: `$VERSION` resolved, nothing cleaned yet. -/
def initSt (env : Env) : St :=
  { version := shellVersion env.srcLoader env.rootLoader
    build := env.initialBuild
    zips := env.initialZips.map (fun n => (n, []))
    copiedSrc := false
    log := [] }

/-- Run a command whose only modelled effect is its exit code: under
`set -e` a non-zero code aborts in the current state. -/
def chk (code : Nat) (st : St) : Except (Nat × St) St :=
  if code = 0 then .ok st else .error (code, st)

/-- Step 1: install npm dependencies unless `node_modules` exists. -/
def step1 (env : Env) (st : St) : Except (Nat × St) St :=
  if env.nodeModules then .ok st else chk env.npmInstallCode st

/-- Step 2: `rm -rf build/` and `rm -f buddypress-*.zip`. -/
def step2 (st : St) : St :=
  { st with build := none, zips := cleanZips st.zips }

/-- The zip grunt's build-zip task leaves behind, when compress ran. -/
def gruntZips (env : Env) : List (String × List String) :=
  if env.gruntMadeZip then
    [(gruntProdArchiveName env.pkgVersion env.srcLoader,
      grunt_prodEntries (env.gruntBuild.getD []))]
  else []

/-- The state after a successful delegated grunt build. -/
def gruntOutSt (env : Env) (st : St) : St :=
  { st with build := env.gruntBuild, zips := st.zips ++ gruntZips env }

/-- `$GRUNT_CMD`: the delegated build rewrites `build/` and possibly drops
the production archive; a non-zero grunt exit aborts the script. -/
def runGrunt (env : Env) (st : St) : Except (Nat × St) St :=
  chk env.gruntCode (gruntOutSt env st)

/-- Step 3: install grunt-contrib-compress if missing, then the gate:
vendor/bin/phpcs present → grunt; else composer present → composer install
then grunt; else hard failure `exit 1` with the diagnostic. -/
def step3 (env : Env) (st : St) : Except (Nat × St) St :=
  (if env.compressPlugin then .ok st else chk env.npmCompressCode st) >>= fun st =>
  if env.vendorPhpcs then runGrunt env st
  else if env.composer then chk env.composerCode st >>= runGrunt env
  else .error (1, { st with log := composerMsg :: st.log })

/-- The state after the degraded `mkdir -p build && cp -r src/* build/`
reconstruction (relative to the state entering Step 4). -/
def copyOutSt (env : Env) (st : St) : St :=
  { st with build := some (visibleSrc env), copiedSrc := true,
            log := copyMsg :: fallbackMsg :: st.log }

/-- Step 4: if `build/` is missing or empty, retry with the four individual
grunt tasks (each aborts on failure) plus `npm run build || true`; if the
build tree is still missing or empty, `mkdir -p build && cp -r src/* build/`
(`cp` fails, aborting the script, when the glob matches nothing). -/
def step4 (env : Env) (st : St) : Except (Nat × St) St :=
  if emptyish st.build then
    chk env.fbCleanCode { st with log := fallbackMsg :: st.log } >>= fun st =>
    chk env.fbCopyCode st >>= fun st =>
    chk env.fbUglifyCode st >>= fun st =>
    chk env.fbCssminCode st >>= fun st =>
    if emptyish env.fbBuild then
      if (visibleSrc env).isEmpty then .error (1, { st with build := env.fbBuild })
      else .ok { st with build := some (visibleSrc env), copiedSrc := true,
                         log := copyMsg :: st.log }
    else .ok { st with build := env.fbBuild }
  else .ok st

/-- Step 5: copy bp-loader.php / readme / license into `build/` only when
the destination file is absent (`[ -f src ] && [ ! -f build/dst ]`). -/
def step5 (env : Env) (st : St) : St :=
  match st.build with
  | none => st
  | some b =>
    let b1 := if env.srcLoader.isSome ∧ "bp-loader.php" ∉ b then b ++ ["bp-loader.php"] else b
    let b2 := if env.readmeTxt ∧ "readme.txt" ∉ b1 then b1 ++ ["readme.txt"]
              else if env.readmeMd ∧ "README.md" ∉ b1 then b1 ++ ["README.md"] else b1
    let b3 := if env.licenseTxt ∧ "license.txt" ∉ b2 then b2 ++ ["license.txt"] else b2
    { st with build := some b3 }

/-- Step 5b: POT generation, best-effort.  Without WP-CLI the step is
skipped with a warning.  With it, either make-pot attempt that succeeds
puts `buddypress.pot` into `build/`; if both fail the failure is logged and
the script continues.  (The ownership/privilege juggling of the original
only decides which user runs wp-cli; it is folded into the two success
oracles.)  A missing build tree gives make-pot nothing to scan, so no POT
appears and the failure branch is taken. -/
def step5b (env : Env) (st : St) : St :=
  if env.wpCli then
    match st.build with
    | some bs =>
      if env.wpPotTemp then { st with build := some (bs ++ ["buddypress.pot"]) }
      else if env.wpPotDirect then { st with build := some (bs ++ ["buddypress.pot"]) }
      else { st with log := potFailMsg :: st.log }
    | none => { st with log := potFailMsg :: st.log }
  else { st with log := wpSkipMsg :: st.log }

/-- Step 6: if grunt already produced `$ZIP_NAME`, keep it; otherwise copy
the glob-visible build files under a `buddypress/` folder and zip it
(`cp -r build/*` aborts when the glob matches nothing; a failing `zip`
aborts through `set -e`). -/
def step6 (env : Env) (st : St) : Except (Nat × St) St :=
  if zipName st.version ∈ st.zips.map Prod.fst then .ok st
  else
    match st.build with
    | none => .error (1, st)
    | some bs =>
      if (bs.filter (fun f => !(isDotName f))).isEmpty then .error (1, st)
      else if env.zipCode = 0 then
        .ok { st with zips := st.zips ++ [(zipName st.version, manualZipEntries bs)] }
      else .error (env.zipCode, st)

/-- The entries of the development zip: the root tree minus the `-x`
globs (zip strips the leading `./` from stored names). -/
def shellDevEntries (tree : List String) : List String :=
  tree.filter (fun e => !(zipExcluded devExcl e))

/-- Step 7: `zip -r $DEV_ZIP_NAME . -x ...`, aborting on a zip failure. -/
def step7 (env : Env) (st : St) : Except (Nat × St) St :=
  if env.devZipCode = 0 then
    .ok { st with zips := st.zips ++ [(devZipName st.version, shellDevEntries env.rootListing)] }
  else .error (env.devZipCode, st)

/-- Step 8: validation is purely informational — a missing script or a
failing validation only changes the logged status. -/
def step8 (env : Env) (st : St) : St :=
  if env.validateScript then
    if env.validateCode = 0 then { st with log := valPassMsg :: st.log }
    else { st with log := valWarnMsg :: st.log }
  else { st with log := valSkipMsg :: st.log }

/-- Steps 3 through 7 from a post-clean state. -/
def coreFrom3 (env : Env) (st : St) : Except (Nat × St) St :=
  step3 env st >>= step4 env >>= fun st =>
  step6 env (step5b env (step5 env st)) >>= step7 env

/-- Steps 1 through 7. -/
def runCore (env : Env) : Except (Nat × St) St :=
  (step1 env (initSt env)).map step2 >>= coreFrom3 env

/-- The whole script: Step 8 and the Step 9 report never fail, so a run
that reaches them exits 0 (`.ok`). -/
def run (env : Env) : Except (Nat × St) St :=
  (runCore env).map (step8 env)

/-- The state at exit, successful or not. -/
def finalSt : Except (Nat × St) St → St
  | .ok s => s
  | .error e => e.2

/-! ## Concrete environments and states used to exercise the model -/

/-- No version source anywhere; delegated build succeeds. -/
def wEnvNoVersion : Env := { vendorPhpcs := true, gruntBuild := some ["f.php"] }

/-- Bare defaults: no vendor/phpcs and no composer on PATH. -/
def wEnvNoComposer : Env := {}

/-- Successful build whose validation script exits non-zero. -/
def wEnvWarn : Env :=
  { vendorPhpcs := true, gruntBuild := some ["bp-loader.php"],
    validateScript := true, validateCode := 1 }

/-- Delegated build leaves nothing; the degraded copy reconstructs build/. -/
def wEnvCopy : Env :=
  { vendorPhpcs := true, srcFiles := ["bp-loader.php", "bp-core/a.php"] }

/-- Delegated build succeeds but makes no archive: the manual zip runs. -/
def wEnvManual : Env :=
  { srcLoader := some [" * Version: 1.0"], vendorPhpcs := true,
    gruntBuild := some ["a.php"],
    rootListing := ["src/a.php", "node_modules/x.js", "build/a.php", "package.json"] }

/-- Delegated build fails to populate build/ and a fallback task fails. -/
def wEnvFbFail : Env := { vendorPhpcs := true, fbUglifyCode := 2 }

/-- A small mid-pipeline state for exercising single steps. -/
def wSt : St :=
  { version := "1.0", build := some ["a.php"], zips := [], copiedSrc := false, log := [] }

/-! ## Glob matcher lemmas -/

theorem gmatch_lit (pre : List Char) (ts : List GTok) (t : List Char) :
    gmatch (pre.map GTok.lit ++ ts) (pre ++ t) = gmatch ts t := by
  induction pre with
  | nil => simp
  | cons a pre ih => simp [gmatch, ih]

theorem gmatch_star_append (s t : List Char) (ps : List GTok)
    (h : gmatch ps t = true) : gmatch (.star :: ps) (s ++ t) = true := by
  have ht : t ∈ (s ++ t).tails := by
    rw [List.mem_tails]
    exact List.suffix_append s t
  rw [gmatch, List.any_eq_true]
  exact ⟨t, ht, h⟩

/-- Every name of the shape `buddypress-<x>.zip` matches the Step 2 clean
glob `buddypress-*.zip`. -/
theorem matchesZipGlob_of (v : List Char) :
    globMatch ("buddypress-*.zip".data) ("buddypress-".data ++ (v ++ ".zip".data)) = true := by
  have hp : gtokens ("buddypress-*.zip".data) =
      "buddypress-".data.map GTok.lit ++ (.star :: ".zip".data.map GTok.lit) := by decide
  rw [globMatch, hp, gmatch_lit]
  exact gmatch_star_append v (".zip".data) _ (by decide)

theorem matchesZipGlob_zipName (v : String) : matchesZipGlob (zipName v) = true := by
  have hd : (zipName v).data = "buddypress-".data ++ (v.data ++ ".zip".data) := by
    simp [zipName, String.data_append]
  rw [matchesZipGlob, hd]
  exact matchesZipGlob_of v.data

theorem matchesZipGlob_devZipName (v : String) : matchesZipGlob (devZipName v) = true := by
  have hd : (devZipName v).data = "buddypress-".data ++ ((v.data ++ "-dev".data) ++ ".zip".data) := by
    have h1 : "-dev.zip".data = "-dev".data ++ ".zip".data := by decide
    simp [devZipName, String.data_append, h1]
  rw [matchesZipGlob, hd]
  exact matchesZipGlob_of (v.data ++ "-dev".data)

theorem matchesZipGlob_grunt (p : Option String) (l : Option (List String)) :
    matchesZipGlob (gruntProdArchiveName p l) = true :=
  matchesZipGlob_zipName _

/-- The production and development zip names of one run never coincide. -/
theorem devZipName_ne_zipName_self (v : String) : ¬(devZipName v = zipName v) := by
  intro h
  have h2 := congrArg String.length h
  simp [devZipName, zipName, String.length_append] at h2
  exact absurd h2 (by decide)

/-- `node_modules/...` paths are excluded by the dev-zip `-x` globs. -/
theorem devExcl_node (r : String) :
    zipExcluded devExcl ("node_modules/" ++ r) = true := by
  rw [zipExcluded, List.any_eq_true]
  refine ⟨"node_modules/*", by decide, ?_⟩
  have hp : gtokens ("node_modules/*".data) =
      "node_modules/".data.map GTok.lit ++ [.star] := by decide
  have hd : ("node_modules/" ++ r).data = "node_modules/".data ++ r.data :=
    String.data_append _ _
  have hr : r.data = r.data ++ [] := by simp
  rw [globMatch, hp, hd, hr, gmatch_lit]
  exact gmatch_star_append r.data [] [] (by decide)

/-- `build/...` paths are excluded by the dev-zip `-x` globs. -/
theorem devExcl_build (r : String) :
    zipExcluded devExcl ("build/" ++ r) = true := by
  rw [zipExcluded, List.any_eq_true]
  refine ⟨"build/*", by decide, ?_⟩
  have hp : gtokens ("build/*".data) = "build/".data.map GTok.lit ++ [.star] := by decide
  have hd : ("build/" ++ r).data = "build/".data ++ r.data := String.data_append _ _
  have hr : r.data = r.data ++ [] := by simp
  rw [globMatch, hp, hd, hr, gmatch_lit]
  exact gmatch_star_append r.data [] [] (by decide)

theorem mmatch_dstar_end (segs : List String) : mmatch [.dstar] segs = true := by
  have h : ([] : List String) ∈ segs.tails := by simp [List.mem_tails]
  rw [mmatch, List.any_eq_true]
  exact ⟨[], h, by simp [mmatch]⟩

/-- `node_modules/**` rejects every path rooted at node_modules on the
grunt development target. -/
theorem grunt_devIncluded_node (p : List String) :
    grunt_devIncluded ("node_modules" :: p) = false := by
  have hm : mmMatch ["node_modules", "**"] ("node_modules" :: p) = true := by
    have ht : mtokens ["node_modules", "**"] = [.seg "node_modules", .dstar] := by decide
    rw [mmMatch, ht, mmatch]
    simp [mmatch_dstar_end, show globMatch ("node_modules".data) ("node_modules".data) = true by decide]
  simp [grunt_devIncluded, grunt_devExcludes, hm]

/-- `build/**` rejects every path rooted at build on the grunt
development target. -/
theorem grunt_devIncluded_build (p : List String) :
    grunt_devIncluded ("build" :: p) = false := by
  have hm : mmMatch ["build", "**"] ("build" :: p) = true := by
    have ht : mtokens ["build", "**"] = [.seg "build", .dstar] := by decide
    rw [mmMatch, ht, mmatch]
    simp [mmatch_dstar_end, show globMatch ("build".data) ("build".data) = true by decide]
  simp [grunt_devIncluded, grunt_devExcludes, hm]

/-- Entries under `buddypress/` are never of the form `node_modules/...`. -/
theorem bp_ne_node (f r : String) : ¬("buddypress/" ++ f = "node_modules/" ++ r) := by
  intro h
  have h2 := congrArg String.data h
  rw [String.data_append, String.data_append] at h2
  have hb : "buddypress/".data =
    'b' :: 'u' :: 'd' :: 'd' :: 'y' :: 'p' :: 'r' :: 'e' :: 's' :: 's' :: '/' :: [] := by decide
  have hn : "node_modules/".data =
    'n' :: 'o' :: 'd' :: 'e' :: '_' :: 'm' :: 'o' :: 'd' :: 'u' :: 'l' :: 'e' :: 's' :: '/' :: [] := by decide
  rw [hb, hn] at h2
  simp at h2

/-- Entries under `buddypress/` are never of the form `build/...`. -/
theorem bp_ne_build (f r : String) : ¬("buddypress/" ++ f = "build/" ++ r) := by
  intro h
  have h2 := congrArg String.data h
  rw [String.data_append, String.data_append] at h2
  have hb : "buddypress/".data =
    'b' :: 'u' :: 'd' :: 'd' :: 'y' :: 'p' :: 'r' :: 'e' :: 's' :: 's' :: '/' :: [] := by decide
  have hn : "build/".data = 'b' :: 'u' :: 'i' :: 'l' :: 'd' :: '/' :: [] := by decide
  rw [hb, hn] at h2
  simp at h2

/-! ## Except-chain inversion helpers -/

theorem bind_okInv {ε α β : Type} {x : Except ε α} {f : α → Except ε β} {t : β}
    (h : (x >>= f) = .ok t) : ∃ m, x = .ok m ∧ f m = .ok t := by
  cases x with
  | error e => exact absurd h (by simp [Bind.bind, Except.bind])
  | ok a => exact ⟨a, rfl, h⟩

theorem bind_errInv {ε α β : Type} {x : Except ε α} {f : α → Except ε β} {e : ε}
    (h : (x >>= f) = .error e) : x = .error e ∨ ∃ m, x = .ok m ∧ f m = .error e := by
  cases x with
  | error e2 =>
    left
    have h2 : (Except.error e2 : Except ε β) = .error e := h
    injection h2 with h3
    rw [h3]
  | ok a => exact Or.inr ⟨a, rfl, h⟩

theorem map_okInv {ε α β : Type} {x : Except ε α} {g : α → β} {t : β}
    (h : x.map g = .ok t) : ∃ m, x = .ok m ∧ t = g m := by
  cases x with
  | error e => exact absurd h (by simp [Except.map])
  | ok a =>
    refine ⟨a, rfl, ?_⟩
    have h2 : (Except.ok (g a) : Except ε β) = .ok t := h
    injection h2 with h3
    rw [h3]

theorem map_errInv {ε α β : Type} {x : Except ε α} {g : α → β} {e : ε}
    (h : x.map g = .error e) : x = .error e := by
  cases x with
  | error e2 =>
    have h2 : (Except.error e2 : Except ε β) = .error e := h
    injection h2 with h3
    rw [h3]
  | ok a => exact absurd h (by simp [Except.map])

theorem isOk_map {ε α β : Type} (x : Except ε α) (g : α → β) :
    (x.map g).isOk = x.isOk := by
  cases x <;> rfl

theorem chk_okInv {c : Nat} {st t : St} (h : chk c st = .ok t) : c = 0 ∧ t = st := by
  unfold chk at h
  split at h
  · injection h with h2
    exact ⟨by assumption, h2.symm⟩
  · exact Except.noConfusion h

theorem chk_errInv {c : Nat} {st : St} {p : Nat × St} (h : chk c st = .error p) :
    ¬(c = 0) ∧ p = (c, st) := by
  unfold chk at h
  split at h
  · exact Except.noConfusion h
  · injection h with h2
    exact ⟨by assumption, h2.symm⟩

/-! ## Step inversion lemmas -/

theorem step1_okInv {env : Env} {s t : St} (h : step1 env s = .ok t) :
    t = s ∧ (env.nodeModules = true ∨ env.npmInstallCode = 0) := by
  unfold step1 at h
  split at h
  · injection h with h2
    exact ⟨h2.symm, Or.inl (by assumption)⟩
  · obtain ⟨h1, h2⟩ := chk_okInv h
    exact ⟨h2, Or.inr h1⟩

theorem step1_errInv {env : Env} {s : St} {p : Nat × St} (h : step1 env s = .error p) :
    p.2 = s := by
  unfold step1 at h
  split at h
  · exact Except.noConfusion h
  · rw [(chk_errInv h).2]

theorem step3_okInv {env : Env} {s t : St} (h : step3 env s = .ok t) :
    t = { s with build := env.gruntBuild, zips := s.zips ++ gruntZips env } ∧
    env.gruntCode = 0 ∧ (env.compressPlugin = true ∨ env.npmCompressCode = 0) := by
  unfold step3 at h
  obtain ⟨m, h1, h2⟩ := bind_okInv h
  have hm : m = s ∧ (env.compressPlugin = true ∨ env.npmCompressCode = 0) := by
    split at h1
    · injection h1 with hx
      exact ⟨hx.symm, Or.inl (by assumption)⟩
    · obtain ⟨hc, hx⟩ := chk_okInv h1
      exact ⟨hx, Or.inr hc⟩
  obtain ⟨rfl, hcp⟩ := hm
  unfold runGrunt at h2
  split at h2
  · obtain ⟨hg, ht⟩ := chk_okInv h2
    exact ⟨ht, hg, hcp⟩
  · split at h2
    · obtain ⟨m2, h3, h4⟩ := bind_okInv h2
      obtain ⟨_, rfl⟩ := chk_okInv h3
      obtain ⟨hg, ht⟩ := chk_okInv h4
      exact ⟨ht, hg, hcp⟩
    · exact Except.noConfusion h2

theorem step3_errInv {env : Env} {s : St} {p : Nat × St} (h : step3 env s = .error p) :
    p.2.copiedSrc = s.copiedSrc := by
  unfold step3 at h
  rcases bind_errInv h with h1 | ⟨m, h1, h2⟩
  · split at h1
    · exact Except.noConfusion h1
    · rw [(chk_errInv h1).2]
  · have hm : m = s := by
      split at h1
      · injection h1 with hx
        exact hx.symm
      · exact (chk_okInv h1).2
    subst hm
    unfold runGrunt at h2
    split at h2
    · rw [(chk_errInv h2).2]
      rfl
    · split at h2
      · rcases bind_errInv h2 with h3 | ⟨m2, h3, h4⟩
        · rw [(chk_errInv h3).2]
        · obtain ⟨_, rfl⟩ := chk_okInv h3
          rw [(chk_errInv h4).2]
          rfl
      · injection h2 with h3
        rw [← h3]

theorem step4_okInv {env : Env} {s t : St} (h : step4 env s = .ok t) :
    t.zips = s.zips ∧ t.version = s.version ∧
    (∃ bs, t.build = some bs ∧ ¬(bs = [])) ∧
    (t.copiedSrc = s.copiedSrc ∨
      (t.copiedSrc = true ∧ emptyish s.build = true ∧ env.fbCleanCode = 0 ∧
       env.fbCopyCode = 0 ∧ env.fbUglifyCode = 0 ∧ env.fbCssminCode = 0 ∧
       emptyish env.fbBuild = true ∧ t.build = some (visibleSrc env))) := by
  unfold step4 at h
  split at h
  case isTrue hempty =>
    obtain ⟨m1, h1, h⟩ := bind_okInv h
    obtain ⟨hc1, rfl⟩ := chk_okInv h1
    obtain ⟨m2, h2, h⟩ := bind_okInv h
    obtain ⟨hc2, rfl⟩ := chk_okInv h2
    obtain ⟨m3, h3, h⟩ := bind_okInv h
    obtain ⟨hc3, rfl⟩ := chk_okInv h3
    obtain ⟨m4, h4, h⟩ := bind_okInv h
    obtain ⟨hc4, rfl⟩ := chk_okInv h4
    split at h
    case isTrue hfb =>
      split at h
      · exact Except.noConfusion h
      case isFalse hvis =>
        injection h with ht
        subst ht
        refine ⟨by simp, by simp, ⟨visibleSrc env, by simp, ?_⟩, ?_⟩
        · intro hnil
          exact hvis (by simp [List.isEmpty_iff, hnil])
        · exact Or.inr ⟨by simp, hempty, hc1, hc2, hc3, hc4, hfb, by simp⟩
    case isFalse hfb =>
      injection h with ht
      subst ht
      refine ⟨by simp, by simp, ?_, Or.inl (by simp)⟩
      cases hb : env.fbBuild with
      | none => exact absurd (by simp [emptyish, hb]) hfb
      | some bs =>
        refine ⟨bs, by simp [hb], ?_⟩
        intro hnil
        exact hfb (by simp [emptyish, hb, hnil])
  case isFalse hempty =>
    injection h with ht
    subst ht
    refine ⟨rfl, rfl, ?_, Or.inl rfl⟩
    cases hb : s.build with
    | none => exact absurd (by simp [emptyish, hb]) hempty
    | some bs =>
      refine ⟨bs, rfl, ?_⟩
      intro hnil
      exact hempty (by simp [emptyish, hb, hnil])

theorem step4_errInv {env : Env} {s : St} {p : Nat × St} (h : step4 env s = .error p) :
    p.2.copiedSrc = s.copiedSrc := by
  unfold step4 at h
  split at h
  · rcases bind_errInv h with h1 | ⟨m1, h1, h⟩
    · rw [(chk_errInv h1).2]
    obtain ⟨_, rfl⟩ := chk_okInv h1
    rcases bind_errInv h with h2 | ⟨m2, h2, h⟩
    · rw [(chk_errInv h2).2]
    obtain ⟨_, rfl⟩ := chk_okInv h2
    rcases bind_errInv h with h3 | ⟨m3, h3, h⟩
    · rw [(chk_errInv h3).2]
    obtain ⟨_, rfl⟩ := chk_okInv h3
    rcases bind_errInv h with h4 | ⟨m4, h4, h⟩
    · rw [(chk_errInv h4).2]
    obtain ⟨_, rfl⟩ := chk_okInv h4
    split at h
    · split at h
      · injection h with h5
        rw [← h5]
      · exact Except.noConfusion h
    · exact Except.noConfusion h
  · exact Except.noConfusion h

theorem step5_zv (env : Env) (s : St) :
    (step5 env s).zips = s.zips ∧ (step5 env s).version = s.version ∧
    (step5 env s).copiedSrc = s.copiedSrc ∧ (step5 env s).log = s.log := by
  unfold step5
  split <;> simp

theorem append_if_shape (b x : List String) (c : Prop) [Decidable c] :
    ∃ e, (if c then b ++ x else b) = b ++ e := by
  by_cases hc : c
  · exact ⟨x, by rw [if_pos hc]⟩
  · exact ⟨[], by rw [if_neg hc, List.append_nil]⟩

theorem append_if2_shape (b x y : List String) (c d : Prop) [Decidable c] [Decidable d] :
    ∃ e, (if c then b ++ x else if d then b ++ y else b) = b ++ e := by
  by_cases hc : c
  · exact ⟨x, by rw [if_pos hc]⟩
  · by_cases hd : d
    · exact ⟨y, by rw [if_neg hc, if_pos hd]⟩
    · exact ⟨[], by rw [if_neg hc, if_neg hd, List.append_nil]⟩

theorem step5_build {env : Env} {s : St} {bs : List String} (h : s.build = some bs) :
    ∃ ext, (step5 env s).build = some (bs ++ ext) := by
  simp only [step5, h]
  obtain ⟨e1, he1⟩ := append_if_shape bs ["bp-loader.php"]
    (env.srcLoader.isSome ∧ "bp-loader.php" ∉ bs)
  rw [he1]
  obtain ⟨e2, he2⟩ := append_if2_shape (bs ++ e1) ["readme.txt"] ["README.md"]
    (env.readmeTxt ∧ "readme.txt" ∉ bs ++ e1) (env.readmeMd ∧ "README.md" ∉ bs ++ e1)
  rw [he2]
  obtain ⟨e3, he3⟩ := append_if_shape (bs ++ e1 ++ e2) ["license.txt"]
    (env.licenseTxt ∧ "license.txt" ∉ bs ++ e1 ++ e2)
  rw [he3]
  exact ⟨e1 ++ e2 ++ e3, by simp⟩

theorem step5b_zv (env : Env) (s : St) :
    (step5b env s).zips = s.zips ∧ (step5b env s).version = s.version ∧
    (step5b env s).copiedSrc = s.copiedSrc := by
  unfold step5b
  split
  · split
    · split
      · simp
      · split <;> simp
    · simp
  · simp

theorem step5b_build {env : Env} {s : St} {bs : List String} (h : s.build = some bs) :
    ∃ ext, (step5b env s).build = some (bs ++ ext) := by
  simp only [step5b, h]
  split
  · split
    · exact ⟨["buddypress.pot"], by simp⟩
    · split
      · exact ⟨["buddypress.pot"], by simp⟩
      · exact ⟨[], by simp [h]⟩
  · exact ⟨[], by simp [h]⟩

theorem step6_okInv {env : Env} {s t : St} (h : step6 env s = .ok t) :
    (t = s ∧ zipName s.version ∈ s.zips.map Prod.fst) ∨
    (∃ bs, s.build = some bs ∧ env.zipCode = 0 ∧
      t = { s with zips := s.zips ++ [(zipName s.version, manualZipEntries bs)] }) := by
  unfold step6 at h
  split at h
  case isTrue hz =>
    injection h with h2
    exact Or.inl ⟨h2.symm, hz⟩
  case isFalse hz =>
    cases hb : s.build with
    | none =>
      simp only [hb] at h
      exact Except.noConfusion h
    | some bs =>
      simp only [hb] at h
      split at h
      · exact Except.noConfusion h
      · split at h
        case isTrue hcode =>
          injection h with h2
          exact Or.inr ⟨bs, rfl, hcode, h2.symm⟩
        case isFalse hcode =>
          exact Except.noConfusion h

theorem step6_errInv {env : Env} {s : St} {p : Nat × St} (h : step6 env s = .error p) :
    p.2 = s := by
  unfold step6 at h
  split at h
  · exact Except.noConfusion h
  · cases hb : s.build with
    | none =>
      simp only [hb] at h
      injection h with h2
      rw [← h2]
    | some bs =>
      simp only [hb] at h
      split at h
      · injection h with h2
        rw [← h2]
      · split at h
        · exact Except.noConfusion h
        · injection h with h2
          rw [← h2]

theorem step7_okInv {env : Env} {s t : St} (h : step7 env s = .ok t) :
    env.devZipCode = 0 ∧
    t = { s with zips := s.zips ++ [(devZipName s.version, shellDevEntries env.rootListing)] } := by
  unfold step7 at h
  split at h
  · injection h with h2
    exact ⟨by assumption, h2.symm⟩
  · exact Except.noConfusion h

theorem step7_errInv {env : Env} {s : St} {p : Nat × St} (h : step7 env s = .error p) :
    p.2 = s := by
  unfold step7 at h
  split at h
  · exact Except.noConfusion h
  · injection h with h2
    rw [← h2]

theorem step8_zv (env : Env) (s : St) :
    (step8 env s).zips = s.zips ∧ (step8 env s).version = s.version ∧
    (step8 env s).build = s.build ∧ (step8 env s).copiedSrc = s.copiedSrc := by
  unfold step8
  split
  · split <;> simp
  · simp

/-! ## Zip-inventory bookkeeping -/

theorem cleanZips_append (a b : List (String × List String)) :
    cleanZips (a ++ b) = cleanZips a ++ cleanZips b := by
  simp [cleanZips]

theorem cleanZips_idem (a : List (String × List String)) :
    cleanZips (cleanZips a) = cleanZips a := by
  simp [cleanZips, List.filter_filter]

theorem cleanZips_nil_of_matches {P : List (String × List String)}
    (h : ∀ z ∈ P, matchesZipGlob z.1 = true) : cleanZips P = [] := by
  rw [cleanZips, List.filter_eq_nil_iff]
  intro z hz
  simp [h z hz]

theorem not_mem_cleanZips {n : String} {zs : List (String × List String)}
    (hm : matchesZipGlob n = true) : n ∉ (cleanZips zs).map Prod.fst := by
  intro hmem
  rcases List.mem_map.1 hmem with ⟨z, hz, hfst⟩
  have hq := (List.mem_filter.1 hz).2
  rw [hfst, hm] at hq
  exact absurd hq (by simp)

theorem cleanZips_pairs_fst (names : List String) :
    ((cleanZips (names.map (fun n => (n, ([] : List String))))).map Prod.fst).map
      (fun n => (n, ([] : List String))) =
    cleanZips (names.map (fun n => (n, ([] : List String)))) := by
  have hid : ∀ z ∈ cleanZips (names.map (fun n => (n, ([] : List String)))),
      ((fun n => (n, ([] : List String))) ∘ Prod.fst) z = id z := by
    intro z hz
    have hzM := List.mem_of_mem_filter hz
    rcases List.mem_map.1 hzM with ⟨n, _, hn⟩
    rw [← hn]
    rfl
  rw [List.map_map, List.map_congr_left hid, List.map_id]

/-! ## Whole-run inversion

A successful run resolves the version once, wipes the initial artifacts,
and ends with exactly the zip inventory: surviving non-matching initial
files, grunt's archive when it made one, the manual production archive
when `$ZIP_NAME` was still missing, and always the development archive. -/

theorem run_okInv {env : Env} {st : St} (h : run env = .ok st) :
    st.version = shellVersion env.srcLoader env.rootLoader ∧
    ∃ mz,
      st.zips = cleanZips ((initSt env).zips) ++
        (gruntZips env ++ (mz ++ [(devZipName st.version, shellDevEntries env.rootListing)])) ∧
      (mz = [] ∨ ∃ bs, mz = [(zipName st.version, manualZipEntries bs)]) ∧
      (mz = [] → zipName st.version ∈ (gruntZips env).map Prod.fst) := by
  obtain ⟨m6, hcore, hst⟩ := map_okInv h
  obtain ⟨s1, hmap, hfrom3⟩ := bind_okInv hcore
  obtain ⟨m0, hstep1, hs1⟩ := map_okInv hmap
  obtain ⟨hm0, _⟩ := step1_okInv hstep1
  subst hm0
  obtain ⟨m4, h34, hrest⟩ := bind_okInv hfrom3
  obtain ⟨m3, hstep3, hstep4⟩ := bind_okInv h34
  obtain ⟨m5, hstep6, hstep7⟩ := bind_okInv hrest
  obtain ⟨hm3, _, _⟩ := step3_okInv hstep3
  obtain ⟨hz4, hv4, _, _⟩ := step4_okInv hstep4
  obtain ⟨hz5, hv5, _, _⟩ := step5_zv env m4
  obtain ⟨hz5b, hv5b, _⟩ := step5b_zv env (step5 env m4)
  obtain ⟨hdev, hm6⟩ := step7_okInv hstep7
  obtain ⟨hz8, hv8, _, _⟩ := step8_zv env m6
  -- field bookkeeping along the chain
  have hzm3 : m3.zips = cleanZips (initSt env).zips ++ gruntZips env := by
    rw [hm3, hs1]
    rfl
  have hvm3 : m3.version = (initSt env).version := by
    rw [hm3, hs1]
    rfl
  have hs5zips : (step5b env (step5 env m4)).zips = cleanZips (initSt env).zips ++ gruntZips env := by
    rw [hz5b, hz5, hz4, hzm3]
  have hs5ver : (step5b env (step5 env m4)).version = (initSt env).version := by
    rw [hv5b, hv5, hv4, hvm3]
  have hzm6 : m6.zips = m5.zips ++ [(devZipName m5.version, shellDevEntries env.rootListing)] := by
    rw [hm6]
  have hvm6 : m6.version = m5.version := by rw [hm6]
  rcases step6_okInv hstep6 with ⟨hm5, hmem⟩ | ⟨bs, _, _, hm5⟩
  · -- grunt already produced $ZIP_NAME: no manual archive
    have hvm5 : m5.version = (initSt env).version := by rw [hm5, hs5ver]
    have hzm5 : m5.zips = cleanZips (initSt env).zips ++ gruntZips env := by
      rw [hm5, hs5zips]
    have hvst : st.version = (initSt env).version := by rw [hst, hv8, hvm6, hvm5]
    refine ⟨hvst, [], ?_, Or.inl rfl, ?_⟩
    · rw [hst, hz8, hzm6, hzm5, hv8, hvm6, hvm5]
      simp
    · intro _
      rw [hs5zips, hs5ver] at hmem
      rw [List.map_append] at hmem
      rw [hvst]
      rcases List.mem_append.1 hmem with hin | hin
      · exact absurd hin (not_mem_cleanZips (matchesZipGlob_zipName _))
      · exact hin
  · -- manual production archive created
    have hzm5 : m5.zips = (cleanZips (initSt env).zips ++ gruntZips env) ++
        [(zipName (initSt env).version, manualZipEntries bs)] := by
      rw [hm5]
      simp only [St.zips, St.version]
      rw [hs5zips, hs5ver]
    have hvm5 : m5.version = (initSt env).version := by
      rw [hm5]
      simp only [St.version]
      rw [hs5ver]
    have hvst : st.version = (initSt env).version := by rw [hst, hv8, hvm6, hvm5]
    refine ⟨hvst, [(zipName st.version, manualZipEntries bs)], ?_, Or.inr ⟨bs, rfl⟩, ?_⟩
    · rw [hst, hz8, hzm6, hzm5, hv8, hvm6, hvm5]
      simp
    · intro hx
      exact absurd hx (by simp)

theorem s5_copied (env : Env) (m4 : St) :
    (step5b env (step5 env m4)).copiedSrc = m4.copiedSrc := by
  rw [(step5b_zv env (step5 env m4)).2.2, (step5_zv env m4).2.2.1]

theorem m4_copied_conclusion {env : Env} {s1 m3 m4 : St}
    (hs1 : s1 = step2 (initSt env))
    (hstep3 : step3 env s1 = .ok m3) (hstep4 : step4 env m3 = .ok m4)
    (h : m4.copiedSrc = true) :
    emptyish env.gruntBuild = true ∧ env.fbCleanCode = 0 ∧ env.fbCopyCode = 0 ∧
    env.fbUglifyCode = 0 ∧ env.fbCssminCode = 0 ∧ emptyish env.fbBuild = true := by
  obtain ⟨hm3, _, _⟩ := step3_okInv hstep3
  obtain ⟨_, _, _, hc4⟩ := step4_okInv hstep4
  rcases hc4 with hpres | ⟨_, hempty, c1, c2, c3, c4, hfb, _⟩
  · rw [hpres, hm3, hs1] at h
    simp [step2, initSt] at h
  · have hgb : m3.build = env.gruntBuild := by rw [hm3]
    rw [hgb] at hempty
    exact ⟨hempty, c1, c2, c3, c4, hfb⟩

/-- The degraded `cp -r src/* build/` reconstruction can only have happened
in a run whose delegated build left `build/` missing or empty and whose
four individual fallback grunt tasks all exited 0 while still leaving
`build/` missing or empty. -/
theorem run_copiedInv {env : Env} (h : (finalSt (run env)).copiedSrc = true) :
    emptyish env.gruntBuild = true ∧ env.fbCleanCode = 0 ∧ env.fbCopyCode = 0 ∧
    env.fbUglifyCode = 0 ∧ env.fbCssminCode = 0 ∧ emptyish env.fbBuild = true := by
  cases hr : run env with
  | ok st =>
    rw [hr] at h
    simp only [finalSt] at h
    obtain ⟨m6, hcore, hst⟩ := map_okInv hr
    obtain ⟨s1, hmap, hfrom3⟩ := bind_okInv hcore
    obtain ⟨m0, hstep1, hs1⟩ := map_okInv hmap
    obtain ⟨hm0, _⟩ := step1_okInv hstep1
    subst hm0
    obtain ⟨m4, h34, hrest⟩ := bind_okInv hfrom3
    obtain ⟨m3, hstep3, hstep4⟩ := bind_okInv h34
    obtain ⟨m5, hstep6, hstep7⟩ := bind_okInv hrest
    have hc6 : m5.copiedSrc = (step5b env (step5 env m4)).copiedSrc := by
      rcases step6_okInv hstep6 with ⟨hm5, _⟩ | ⟨bs, _, _, hm5⟩ <;> rw [hm5]
    have hc7 : m6.copiedSrc = m5.copiedSrc := by rw [(step7_okInv hstep7).2]
    rw [hst, (step8_zv env m6).2.2.2, hc7, hc6, s5_copied] at h
    exact m4_copied_conclusion hs1 hstep3 hstep4 h
  | error e =>
    rw [hr] at h
    simp only [finalSt] at h
    unfold run at hr
    have hrc : runCore env = .error e := map_errInv hr
    unfold runCore at hrc
    rcases bind_errInv hrc with h1 | ⟨s1, h1, h2⟩
    · have he := step1_errInv (map_errInv h1)
      rw [he] at h
      simp [initSt] at h
    · obtain ⟨m0, hstep1, hs1⟩ := map_okInv h1
      obtain ⟨hm0, _⟩ := step1_okInv hstep1
      subst hm0
      unfold coreFrom3 at h2
      rcases bind_errInv h2 with h3 | ⟨m4, h34, h4⟩
      · rcases bind_errInv h3 with h5 | ⟨m3, hstep3, hstep4e⟩
        · rw [step3_errInv h5, hs1] at h
          simp [step2, initSt] at h
        · obtain ⟨hm3, _, _⟩ := step3_okInv hstep3
          rw [step4_errInv hstep4e, hm3, hs1] at h
          simp [step2, initSt] at h
      · obtain ⟨m3, hstep3, hstep4⟩ := bind_okInv h34
        rcases bind_errInv h4 with h5 | ⟨m5, hstep6, hstep7e⟩
        · rw [step6_errInv h5, s5_copied] at h
          exact m4_copied_conclusion hs1 hstep3 hstep4 h
        · have hc6 : m5.copiedSrc = (step5b env (step5 env m4)).copiedSrc := by
            rcases step6_okInv hstep6 with ⟨hm5, _⟩ | ⟨bs, _, _, hm5⟩ <;> rw [hm5]
          rw [step7_errInv hstep7e, hc6, s5_copied] at h
          exact m4_copied_conclusion hs1 hstep3 hstep4 h

/-! ## Forward construction helpers -/

theorem ok_bind {ε α β : Type} (a : α) (f : α → Except ε β) :
    ((Except.ok a : Except ε α) >>= f) = f a := rfl

theorem err_bind {ε α β : Type} (e : ε) (f : α → Except ε β) :
    ((Except.error e : Except ε α) >>= f) = .error e := rfl

theorem ok_map {ε α β : Type} (a : α) (g : α → β) :
    (Except.ok a : Except ε α).map g = .ok (g a) := rfl

theorem err_map {ε α β : Type} (e : ε) (g : α → β) :
    (Except.error e : Except ε α).map g = .error e := rfl

theorem step1_ok_of {env : Env} (hn : env.nodeModules = true ∨ env.npmInstallCode = 0)
    (s : St) : step1 env s = .ok s := by
  unfold step1
  split
  · rfl
  · rcases hn with hn | hn
    · simp_all
    · simp [chk, hn]

theorem step3_ok_of {env : Env} (s : St)
    (hcp : env.compressPlugin = true ∨ env.npmCompressCode = 0)
    (hgate : env.vendorPhpcs = true ∨ (env.composer = true ∧ env.composerCode = 0))
    (hg : env.gruntCode = 0) :
    step3 env s = .ok (gruntOutSt env s) := by
  unfold step3 runGrunt
  have hpre : (if env.compressPlugin then Except.ok s else chk env.npmCompressCode s) = .ok s := by
    split
    · rfl
    · rcases hcp with hcp | hcp
      · simp_all
      · simp [chk, hcp]
  rw [hpre, ok_bind]
  by_cases hv : env.vendorPhpcs = true
  · rw [if_pos hv]
    simp [chk, hg]
  · rw [if_neg hv]
    rcases hgate with hgate | ⟨hc, hcc⟩
    · exact absurd hgate hv
    · rw [if_pos hc]
      simp [chk, hcc, hg, ok_bind]

theorem step4_err_of {env : Env} {s : St} (hge : emptyish s.build = true)
    (hfail : ¬(env.fbCleanCode = 0 ∧ env.fbCopyCode = 0 ∧ env.fbUglifyCode = 0 ∧
               env.fbCssminCode = 0)) :
    ∃ c st4, step4 env s = .error (c, st4) ∧ ¬(c = 0) ∧ st4.copiedSrc = s.copiedSrc := by
  unfold step4
  rw [if_pos hge]
  by_cases c1 : env.fbCleanCode = 0
  · simp only [chk, if_pos c1, ok_bind]
    by_cases c2 : env.fbCopyCode = 0
    · simp only [if_pos c2, ok_bind]
      by_cases c3 : env.fbUglifyCode = 0
      · simp only [if_pos c3, ok_bind]
        by_cases c4 : env.fbCssminCode = 0
        · exact absurd ⟨c1, c2, c3, c4⟩ hfail
        · refine ⟨env.fbCssminCode, { s with log := fallbackMsg :: s.log }, ?_, c4, rfl⟩
          simp only [if_neg c4, err_bind]
      · refine ⟨env.fbUglifyCode, { s with log := fallbackMsg :: s.log }, ?_, c3, rfl⟩
        simp only [if_neg c3, err_bind]
    · refine ⟨env.fbCopyCode, { s with log := fallbackMsg :: s.log }, ?_, c2, rfl⟩
      simp only [if_neg c2, err_bind]
  · refine ⟨env.fbCleanCode, { s with log := fallbackMsg :: s.log }, ?_, c1, rfl⟩
    simp only [chk, if_neg c1, err_bind]

theorem step4_copy_of {env : Env} {s : St} (hge : emptyish s.build = true)
    (c1 : env.fbCleanCode = 0) (c2 : env.fbCopyCode = 0) (c3 : env.fbUglifyCode = 0)
    (c4 : env.fbCssminCode = 0) (hfb : emptyish env.fbBuild = true)
    (hvs : ¬((visibleSrc env).isEmpty = true)) :
    step4 env s = .ok (copyOutSt env s) := by
  unfold step4 copyOutSt
  rw [if_pos hge]
  simp only [chk, if_pos c1, ok_bind, if_pos c2, if_pos c3, if_pos c4]
  rw [if_pos hfb, if_neg hvs]

theorem step7_ok_of {env : Env} (hdz : env.devZipCode = 0) (x : St) :
    step7 env x =
      .ok { x with zips := x.zips ++ [(devZipName x.version, shellDevEntries env.rootListing)] } := by
  unfold step7
  rw [if_pos hdz]

theorem step67_ok {env : Env} {s : St} (hdz : env.devZipCode = 0) (hz : env.zipCode = 0)
    {bs : List String} (hb : s.build = some bs)
    (hbs : (bs.filter (fun f => !(isDotName f))).isEmpty = false) :
    ∃ t, (step6 env s >>= step7 env) = .ok t ∧ t.build = s.build ∧
      t.copiedSrc = s.copiedSrc := by
  by_cases hmem : zipName s.version ∈ s.zips.map Prod.fst
  · have h6 : step6 env s = .ok s := by
      unfold step6
      rw [if_pos hmem]
    refine ⟨{ s with zips := s.zips ++
        [(devZipName s.version, shellDevEntries env.rootListing)] }, ?_, rfl, rfl⟩
    rw [h6, ok_bind, step7_ok_of hdz]
  · have h6 : step6 env s =
        .ok { s with zips := s.zips ++ [(zipName s.version, manualZipEntries bs)] } := by
      unfold step6
      rw [if_neg hmem]
      simp only [hb]
      rw [if_neg (by simp [hbs]), if_pos hz]
    refine ⟨{ s with zips := (s.zips ++ [(zipName s.version, manualZipEntries bs)]) ++
        [(devZipName s.version, shellDevEntries env.rootListing)] }, ?_, rfl, rfl⟩
    rw [h6, ok_bind, step7_ok_of hdz]

theorem tail_ok {env : Env} {s4 : St} (hb : s4.build = some (visibleSrc env))
    (hc : s4.copiedSrc = true) (hz : env.zipCode = 0) (hdz : env.devZipCode = 0)
    (hvsne : (visibleSrc env).isEmpty = false) :
    ∃ t extra, (step6 env (step5b env (step5 env s4)) >>= step7 env) = .ok t ∧
      t.copiedSrc = true ∧ t.build = some (visibleSrc env ++ extra) := by
  obtain ⟨e5, he5⟩ := @step5_build env _ _ hb
  obtain ⟨e5b, he5b⟩ := @step5b_build env _ _ he5
  have hcop : (step5b env (step5 env s4)).copiedSrc = true := by
    rw [s5_copied, hc]
  have hvv : (visibleSrc env).filter (fun f => !(isDotName f)) = visibleSrc env := by
    unfold visibleSrc
    rw [List.filter_filter]
    simp
  have hfilter : (((visibleSrc env ++ e5) ++ e5b).filter
      (fun f => !(isDotName f))).isEmpty = false := by
    have hassoc : visibleSrc env ++ e5 ++ e5b = visibleSrc env ++ (e5 ++ e5b) := by simp
    rw [hassoc, List.filter_append, hvv]
    cases hvc : visibleSrc env with
    | nil =>
      rw [hvc] at hvsne
      exact absurd hvsne (by simp)
    | cons a l => simp
  obtain ⟨t, h67, htb, htc⟩ := step67_ok hdz hz he5b hfilter
  refine ⟨t, e5 ++ e5b, h67, by rw [htc, hcop], ?_⟩
  rw [htb, he5b]
  simp

/-! ## Claims -/

/-- C1: the spec's version-resolution precedence claims that an
empty-string manifest version falls through to the `Version:` header of
bp-loader.php, giving `2.3.0` in the decisive scenario.  The Gruntfile's
archive() contradicts its own comment: `pkg.version || '11.5.1'` already
replaces the empty string by the constant, so the subsequent `!version`
guard is unreachable and the header is never consulted — the code returns
`buddypress-11.5.1.zip`, not `buddypress-2.3.0.zip`.  The second conjunct
shows the header branch is dead for every input. -/
theorem claim1 :
    gruntProdArchiveName (some "") (some ["<?php", " * Version: 2.3.0"]) =
      "buddypress-11.5.1.zip" ∧
    ∀ (pkg : Option String) (loader : Option (List String)),
      gruntProdArchiveName pkg loader = "buddypress-" ++ jsFalsyOr pkg "11.5.1" ++ ".zip" := by
  constructor
  · rfl
  · intro pkg loader
    have hne : ¬(jsFalsyOr pkg "11.5.1" = "") := by
      cases pkg with
      | none => decide
      | some s =>
        by_cases hs : s = ""
        · rw [show jsFalsyOr (some s) "11.5.1" = "11.5.1" from by simp [jsFalsyOr, hs]]
          decide
        · rw [show jsFalsyOr (some s) "11.5.1" = s from by simp [jsFalsyOr, hs]]
          exact hs
    simp only [gruntProdArchiveName]
    rw [if_neg hne]

/-- C2 counterexample: with no `Version:` header anywhere the resolver
returns the empty string, not a fallback constant, and the run still
completes, naming its archives `buddypress-.zip` / `buddypress--dev.zip`.
This refutes the claim that the resolved version is always non-empty. -/
theorem claim2_cex :
    shellVersion none none = "" ∧
    (run wEnvNoVersion).isOk = true ∧
    (finalSt (run wEnvNoVersion)).version = "" ∧
    ¬((finalSt (run wEnvNoVersion)).version = "11.5.1") ∧
    zipName (finalSt (run wEnvNoVersion)).version = "buddypress-.zip" ∧
    devZipName (finalSt (run wEnvNoVersion)).version = "buddypress--dev.zip" := by
  refine ⟨rfl, ?_, ?_, ?_, ?_, ?_⟩ <;> decide

/-- C2 amended: version resolution never aborts the run, but there is no
fallback constant: the version is whatever the two header files yield and
may be the empty string.  It is resolved once, and every successful run
carries both a production archive named `buddypress-<v>.zip` and a
development archive named `buddypress-<v>-dev.zip` for that same `v`. -/
theorem claim2 {env : Env} {st : St} (h : run env = .ok st) :
    st.version = shellVersion env.srcLoader env.rootLoader ∧
    (∃ es, (zipName st.version, es) ∈ st.zips) ∧
    (∃ es, (devZipName st.version, es) ∈ st.zips) := by
  obtain ⟨hv, mz, hz, hmz, hmem⟩ := run_okInv h
  refine ⟨hv, ?_, ?_⟩
  · rcases hmz with rfl | ⟨bs, rfl⟩
    · have hin := hmem rfl
      rcases List.mem_map.1 hin with ⟨z, hzin, hfst⟩
      refine ⟨z.2, ?_⟩
      rw [hz]
      have hzz : (zipName st.version, z.2) = z := by
        rw [← hfst]
      rw [hzz]
      exact List.mem_append.2 (Or.inr (List.mem_append.2 (Or.inl hzin)))
    · refine ⟨manualZipEntries bs, ?_⟩
      rw [hz]
      simp
  · refine ⟨shellDevEntries env.rootListing, ?_⟩
    rw [hz]
    simp

theorem claim2_witness :
    (finalSt (run wEnvManual)).version =
      shellVersion wEnvManual.srcLoader wEnvManual.rootLoader ∧
    (∃ es, (zipName (finalSt (run wEnvManual)).version, es) ∈ (finalSt (run wEnvManual)).zips) ∧
    (∃ es, (devZipName (finalSt (run wEnvManual)).version, es) ∈ (finalSt (run wEnvManual)).zips) :=
  claim2 (by rfl)

/-- C3: the orchestrator exits 0 on success including warning outcomes, and
exits non-zero with an actionable diagnostic when a required step fails — in
particular, with no vendor/bin/phpcs and no composer on PATH it aborts with
exit code 1 and the `ERROR: Composer not found!` message.  Conjunct 2 shows
the validation step can never change the exit status; conjunct 3 shows a
failing validation only logs a warning on an otherwise successful (exit 0)
run. -/
theorem claim3 (env : Env) :
    ((env.nodeModules = true ∨ env.npmInstallCode = 0) →
     (env.compressPlugin = true ∨ env.npmCompressCode = 0) →
     env.vendorPhpcs = false → env.composer = false →
     ∃ st, run env = .error (1, st) ∧ composerMsg ∈ st.log) ∧
    (∀ (b : Bool) (c : Nat),
      (run { env with validateScript := b, validateCode := c }).isOk = (run env).isOk) ∧
    ((run env).isOk = true → env.validateScript = true → ¬(env.validateCode = 0) →
     valWarnMsg ∈ (finalSt (run env)).log) := by
  refine ⟨?_, ?_, ?_⟩
  · intro hn hcp hv hc
    have h1 := step1_ok_of hn (initSt env)
    have h3 : step3 env (step2 (initSt env)) =
        .error (1, { step2 (initSt env) with
                       log := composerMsg :: (step2 (initSt env)).log }) := by
      unfold step3
      have hpre : (if env.compressPlugin then Except.ok (step2 (initSt env))
          else chk env.npmCompressCode (step2 (initSt env))) = .ok (step2 (initSt env)) := by
        split
        · rfl
        · rcases hcp with hcp | hcp
          · simp_all
          · simp [chk, hcp]
      rw [hpre, ok_bind, if_neg (by simp [hv]), if_neg (by simp [hc])]
    refine ⟨{ step2 (initSt env) with log := composerMsg :: (step2 (initSt env)).log },
      ?_, List.mem_cons_self _ _⟩
    unfold run runCore coreFrom3
    rw [h1, ok_map, ok_bind, h3, err_bind, err_bind, err_map]
  · intro b c
    unfold run
    rw [isOk_map, isOk_map]
    rfl
  · intro hok hvs hvc
    have hex : ∃ st, run env = .ok st := by
      cases hr : run env with
      | ok st => exact ⟨st, rfl⟩
      | error e =>
        rw [hr] at hok
        exact absurd hok (by simp [Except.isOk, Except.toBool])
    obtain ⟨st, hst⟩ := hex
    obtain ⟨m6, _, hsteq⟩ := map_okInv hst
    rw [hst]
    simp only [finalSt]
    rw [hsteq]
    unfold step8
    rw [if_pos hvs, if_neg hvc]
    exact List.mem_cons_self _ _

theorem claim3_witness :
    (∃ st, run wEnvNoComposer = .error (1, st) ∧ composerMsg ∈ st.log) ∧
    valWarnMsg ∈ (finalSt (run wEnvWarn)).log :=
  ⟨(claim3 wEnvNoComposer).1 (Or.inl rfl) (Or.inl rfl) rfl rfl,
   (claim3 wEnvWarn).2.2 (by decide) rfl (by decide)⟩

/-- C9: with `set -e`, the degraded copy-source-tree reconstruction is
reached only when the four individual fallback build commands all exit 0
while the build tree stays missing or empty (conjunct 1, over every run,
successful or aborted); and if any of the four fails, the pipeline aborts
with that command's non-zero exit code before the source tree is copied
(conjunct 2). -/
theorem claim9 (env : Env) :
    ((finalSt (run env)).copiedSrc = true →
      env.fbCleanCode = 0 ∧ env.fbCopyCode = 0 ∧ env.fbUglifyCode = 0 ∧
      env.fbCssminCode = 0 ∧ emptyish env.fbBuild = true ∧
      emptyish env.gruntBuild = true) ∧
    ((env.nodeModules = true ∨ env.npmInstallCode = 0) →
     (env.compressPlugin = true ∨ env.npmCompressCode = 0) →
     (env.vendorPhpcs = true ∨ (env.composer = true ∧ env.composerCode = 0)) →
     env.gruntCode = 0 → emptyish env.gruntBuild = true →
     ¬(env.fbCleanCode = 0 ∧ env.fbCopyCode = 0 ∧ env.fbUglifyCode = 0 ∧
       env.fbCssminCode = 0) →
     ∃ c st, run env = .error (c, st) ∧ ¬(c = 0) ∧ st.copiedSrc = false) := by
  constructor
  · intro h
    obtain ⟨hg, c1, c2, c3, c4, hfb⟩ := run_copiedInv h
    exact ⟨c1, c2, c3, c4, hfb, hg⟩
  · intro hn hcp hgate hg hge hfail
    have h1 := step1_ok_of hn (initSt env)
    have h3 := step3_ok_of (step2 (initSt env)) hcp hgate hg
    have hge2 : emptyish (gruntOutSt env (step2 (initSt env))).build = true := hge
    obtain ⟨c, st4, h4, hc0, hcp4⟩ := step4_err_of hge2 hfail
    refine ⟨c, st4, ?_, hc0, ?_⟩
    · unfold run runCore coreFrom3
      rw [h1, ok_map, ok_bind, h3, ok_bind, h4, err_bind, err_map]
    · rw [hcp4]
      rfl

/-- C4: when the delegated build exits 0 yet leaves `build/` missing or
empty, and the individual fallback tasks also leave it empty, the pipeline
reconstructs `build/` by copying the source tree (the glob-visible files of
`src/`, which is the whole tree here since no top-level name is hidden) and
the run still completes successfully with a non-empty build directory —
containing the copied source files plus at most the reconciled root files
and the POT file. -/
theorem claim4 (env : Env)
    (hn : env.nodeModules = true ∨ env.npmInstallCode = 0)
    (hcp : env.compressPlugin = true ∨ env.npmCompressCode = 0)
    (hgate : env.vendorPhpcs = true ∨ (env.composer = true ∧ env.composerCode = 0))
    (hg : env.gruntCode = 0)
    (hge : emptyish env.gruntBuild = true)
    (c1 : env.fbCleanCode = 0) (c2 : env.fbCopyCode = 0)
    (c3 : env.fbUglifyCode = 0) (c4 : env.fbCssminCode = 0)
    (hfb : emptyish env.fbBuild = true)
    (hnh : ∀ p ∈ env.srcFiles, isDotName p = false)
    (hsrc : ¬(env.srcFiles = []))
    (hz : env.zipCode = 0) (hdz : env.devZipCode = 0) :
    ∃ st extra, run env = .ok st ∧ st.copiedSrc = true ∧
      st.build = some (env.srcFiles ++ extra) ∧ ¬(env.srcFiles ++ extra = []) := by
  have hvis : visibleSrc env = env.srcFiles := by
    unfold visibleSrc
    apply List.filter_eq_self.2
    intro a ha
    simp [hnh a ha]
  have hvsne : (visibleSrc env).isEmpty = false := by
    rw [hvis]
    cases hc : env.srcFiles with
    | nil => exact absurd hc hsrc
    | cons a l => rfl
  have hvs : ¬((visibleSrc env).isEmpty = true) := by simp [hvsne]
  have h1 := step1_ok_of hn (initSt env)
  have h3 := step3_ok_of (step2 (initSt env)) hcp hgate hg
  have hge2 : emptyish (gruntOutSt env (step2 (initSt env))).build = true := hge
  have h4 := step4_copy_of (s := gruntOutSt env (step2 (initSt env))) hge2 c1 c2 c3 c4 hfb hvs
  obtain ⟨t, extra, h67, htc, htb⟩ :=
    @tail_ok env (copyOutSt env (gruntOutSt env (step2 (initSt env)))) rfl rfl hz hdz hvsne
  refine ⟨step8 env t, extra, ?_, ?_, ?_, ?_⟩
  · unfold run runCore coreFrom3
    rw [h1, ok_map, ok_bind, h3, ok_bind, h4, ok_bind, h67, ok_map]
  · rw [(step8_zv env t).2.2.2, htc]
  · rw [(step8_zv env t).2.2.1, htb, hvis]
  · intro hne
    exact hsrc (List.append_eq_nil.1 hne).1

theorem claim4_witness :
    ∃ st extra, run wEnvCopy = .ok st ∧ st.copiedSrc = true ∧
      st.build = some (wEnvCopy.srcFiles ++ extra) ∧
      ¬(wEnvCopy.srcFiles ++ extra = []) :=
  claim4 wEnvCopy (Or.inl rfl) (Or.inl rfl) (Or.inl rfl) rfl rfl rfl rfl rfl rfl rfl
    (by decide) (by decide) rfl rfl

theorem cleanZips_pairs_of_matches {P : List (String × List String)}
    (h : ∀ z ∈ P, matchesZipGlob z.1 = true) :
    cleanZips ((P.map Prod.fst).map (fun n => (n, ([] : List String)))) = [] := by
  apply cleanZips_nil_of_matches
  intro z hz
  rcases List.mem_map.1 hz with ⟨n, hn, hnz⟩
  rcases List.mem_map.1 hn with ⟨z2, hz2, hz2n⟩
  rw [← hnz, ← hz2n]
  exact h z2 hz2

theorem nodup_append_absent {bs : List String} {x : String} (hnd : bs.Nodup)
    (hx : x ∉ bs) : (bs ++ [x]).Nodup := by
  simp [List.nodup_append, hnd, hx]

theorem nodup_if_append {b : List String} {x : String} {c : Prop} [Decidable c]
    (hc : c → x ∉ b) (h : b.Nodup) : (if c then b ++ [x] else b).Nodup := by
  split
  case isTrue hcc => exact nodup_append_absent h (hc hcc)
  case isFalse => exact h

theorem nodup_if2_append {b : List String} {x y : String} {c d : Prop}
    [Decidable c] [Decidable d] (hc : c → x ∉ b) (hd : d → y ∉ b) (h : b.Nodup) :
    (if c then b ++ [x] else if d then b ++ [y] else b).Nodup := by
  split
  case isTrue hcc => exact nodup_append_absent h (hc hcc)
  case isFalse =>
    split
    case isTrue hdd => exact nodup_append_absent h (hd hdd)
    case isFalse => exact h

/-- C5: the pipeline is safely re-runnable.  Starting a second run from the
artifacts the first run left behind — its build directory, its zip files,
its installed npm packages — with the same external-tool behavior produces
exactly the same final state, because Step 2 deterministically wipes the
build directory and every `buddypress-*.zip` before rebuilding (conjunct
1).  And the Step 5 reconciliation copies a root file only when absent, so
it never duplicates an entry in a duplicate-free build listing (conjunct
2). -/
theorem claim5 {env : Env} {st : St} (h : run env = .ok st) :
    run { env with
            nodeModules := true
            compressPlugin := true
            initialBuild := st.build
            initialZips := st.zips.map Prod.fst } = .ok st ∧
    (∀ (s : St) (bs : List String), s.build = some bs → bs.Nodup →
      ∃ bs2, (step5 env s).build = some bs2 ∧ bs2.Nodup) := by
  constructor
  · obtain ⟨m6, hcore, hst⟩ := map_okInv h
    obtain ⟨s1, hmap, hfrom3⟩ := bind_okInv hcore
    obtain ⟨m0, hstep1, hs1⟩ := map_okInv hmap
    obtain ⟨hm0, hn⟩ := step1_okInv hstep1
    subst hm0
    obtain ⟨m4, h34, hrest⟩ := bind_okInv hfrom3
    obtain ⟨m3, hstep3, hstep4⟩ := bind_okInv h34
    obtain ⟨m5, hstep6, hstep7⟩ := bind_okInv hrest
    obtain ⟨hv, mz, hz, hmz, hmem⟩ := run_okInv h
    set env2 : Env := { env with
        nodeModules := true
        compressPlugin := true
        initialBuild := st.build
        initialZips := st.zips.map Prod.fst } with henv2
    have hmatchP : ∀ z ∈ gruntZips env ++
        (mz ++ [(devZipName st.version, shellDevEntries env.rootListing)]),
        matchesZipGlob z.1 = true := by
      intro z hzm
      rcases List.mem_append.1 hzm with hzm | hzm
      · unfold gruntZips at hzm
        split at hzm
        · rw [List.mem_singleton] at hzm
          rw [hzm]
          exact matchesZipGlob_grunt _ _
        · simp at hzm
      · rcases List.mem_append.1 hzm with hzm | hzm
        · rcases hmz with rfl | ⟨bs, rfl⟩
          · simp at hzm
          · rw [List.mem_singleton] at hzm
            rw [hzm]
            exact matchesZipGlob_zipName _
        · rw [List.mem_singleton] at hzm
          rw [hzm]
          exact matchesZipGlob_devZipName _
    have hips : (initSt env).zips =
        env.initialZips.map (fun n => (n, ([] : List String))) := rfl
    have hZEQ : cleanZips ((st.zips.map Prod.fst).map (fun n => (n, ([] : List String)))) =
        cleanZips ((initSt env).zips) := by
      rw [hz, List.map_append, List.map_append, cleanZips_append,
          cleanZips_pairs_of_matches hmatchP, List.append_nil, hips,
          cleanZips_pairs_fst]
      exact cleanZips_idem _
    have hinit2 : step2 (initSt env2) = step2 (initSt env) := by
      simp only [step2, initSt, St.mk.injEq, henv2]
      exact ⟨trivial, trivial, hZEQ, trivial, trivial⟩
    have hg3 : step3 env2 s1 = .ok m3 := by
      unfold step3 at hstep3
      obtain ⟨mp, hp, hgg⟩ := bind_okInv hstep3
      have hmp : mp = s1 := by
        split at hp
        · injection hp with hx
          exact hx.symm
        · exact (chk_okInv hp).2
      subst hmp
      exact hgg
    have hg4 : step4 env2 m3 = .ok m4 := hstep4
    have hg5 : step5b env2 (step5 env2 m4) = step5b env (step5 env m4) := rfl
    have hg6 : step6 env2 (step5b env (step5 env m4)) = .ok m5 := hstep6
    have hg7 : step7 env2 m5 = .ok m6 := hstep7
    unfold run runCore
    rw [step1_ok_of (Or.inl rfl) _, ok_map, ok_bind, hinit2, ← hs1]
    unfold coreFrom3
    rw [hg3, ok_bind, hg4, ok_bind, hg5, hg6, ok_bind, hg7, ok_map, hst]
    rfl
  · intro s bs hsb hnd
    simp only [step5, hsb]
    refine ⟨_, rfl, ?_⟩
    apply nodup_if_append (fun hc => hc.2)
    apply nodup_if2_append (fun hc => hc.2) (fun hd => hd.2)
    apply nodup_if_append (fun hc => hc.2)
    exact hnd

theorem claim5_witness :
    run { wEnvManual with
            nodeModules := true
            compressPlugin := true
            initialBuild := (finalSt (run wEnvManual)).build
            initialZips := (finalSt (run wEnvManual)).zips.map Prod.fst } =
      .ok (finalSt (run wEnvManual)) ∧
    (∃ bs2, (step5 wEnvManual wSt).build = some bs2 ∧ bs2.Nodup) :=
  ⟨(claim5 (by rfl)).1,
   (@claim5 wEnvManual (finalSt (run wEnvManual)) (by rfl)).2 wSt ["a.php"] rfl (by decide)⟩

theorem step7_isOk (env : Env) (x y : St) : (step7 env x).isOk = (step7 env y).isOk := by
  unfold step7
  split <;> rfl

theorem isOk_bind_step7 {env : Env} {x y : Except (Nat × St) St}
    (hxy : x.isOk = y.isOk) :
    (x >>= step7 env).isOk = (y >>= step7 env).isOk := by
  cases x with
  | error e =>
    cases y with
    | error e2 => rfl
    | ok b => exact absurd hxy (by simp [Except.isOk, Except.toBool])
  | ok a =>
    cases y with
    | error e2 => exact absurd hxy (by simp [Except.isOk, Except.toBool])
    | ok b =>
      rw [ok_bind, ok_bind]
      exact step7_isOk env a b

/-- Step 6 succeeds or fails the same way on two states agreeing on
version, zip inventory and build tree (the log plays no role). -/
theorem step6_isOk_view {env : Env} {a b : St} (hv : a.version = b.version)
    (hz : a.zips = b.zips) (hb : a.build = b.build) :
    (step6 env a).isOk = (step6 env b).isOk := by
  unfold step6
  by_cases hc : zipName b.version ∈ b.zips.map Prod.fst
  · rw [if_pos (by rw [hv, hz]; exact hc), if_pos hc]
    rfl
  · rw [if_neg (by rw [hv, hz]; exact hc), if_neg hc]
    cases hbb : b.build with
    | none =>
      have hba : a.build = none := by rw [hb, hbb]
      simp only [hba, hbb]
      rfl
    | some bs =>
      have hba : a.build = some bs := by rw [hb, hbb]
      simp only [hba, hbb]
      by_cases hfe : (bs.filter (fun f => !(isDotName f))).isEmpty = true
      · rw [if_pos hfe, if_pos hfe]
        rfl
      · rw [if_neg hfe, if_neg hfe]
        by_cases hzc : env.zipCode = 0
        · rw [if_pos hzc, if_pos hzc]
          rfl
        · rw [if_neg hzc, if_neg hzc]
          rfl

/-- C8: the POT step is best-effort.  Without WP-CLI it only logs the skip
warning and changes nothing else (conjunct 1); with WP-CLI but both
make-pot attempts failing it only logs the failure warning (conjunct 2);
and in every such skipped/failed mode the run's exit status is exactly the
status of the run that skips the step, i.e. the POT step never aborts the
pipeline (conjunct 3). -/
theorem claim8 (env : Env) (s : St) :
    (env.wpCli = false → step5b env s = { s with log := wpSkipMsg :: s.log }) ∧
    (env.wpCli = true → env.wpPotTemp = false → env.wpPotDirect = false →
      step5b env s = { s with log := potFailMsg :: s.log }) ∧
    (∀ w t d : Bool, w = false ∨ (t = false ∧ d = false) →
      (run { env with wpCli := w, wpPotTemp := t, wpPotDirect := d }).isOk =
      (run { env with wpCli := false, wpPotTemp := t, wpPotDirect := d }).isOk) := by
  refine ⟨?_, ?_, ?_⟩
  · intro hw
    unfold step5b
    rw [if_neg (by simp [hw])]
  · intro hw ht hd
    unfold step5b
    rw [if_pos hw]
    cases hsb : s.build with
    | none => simp only [hsb]
    | some bs =>
      simp only [hsb]
      rw [if_neg (by simp [ht]), if_neg (by simp [hd])]
  · intro w t d hwd
    rcases hwd with rfl | ⟨rfl, rfl⟩
    · rfl
    · cases w with
      | false => rfl
      | true =>
      unfold run
      rw [isOk_map, isOk_map]
      unfold runCore
      have hpre : (step1 { env with wpCli := true, wpPotTemp := false, wpPotDirect := false }
            (initSt { env with wpCli := true, wpPotTemp := false, wpPotDirect := false })).map step2 =
          (step1 { env with wpCli := false, wpPotTemp := false, wpPotDirect := false }
            (initSt { env with wpCli := false, wpPotTemp := false, wpPotDirect := false })).map step2 := rfl
      rw [hpre]
      cases hpx : (step1 { env with wpCli := false, wpPotTemp := false, wpPotDirect := false }
          (initSt { env with wpCli := false, wpPotTemp := false, wpPotDirect := false })).map step2 with
      | error e => rfl
      | ok s1 =>
        rw [ok_bind, ok_bind]
        unfold coreFrom3
        have h34 : (step3 { env with wpCli := true, wpPotTemp := false, wpPotDirect := false } s1 >>=
              step4 { env with wpCli := true, wpPotTemp := false, wpPotDirect := false }) =
            (step3 { env with wpCli := false, wpPotTemp := false, wpPotDirect := false } s1 >>=
              step4 { env with wpCli := false, wpPotTemp := false, wpPotDirect := false }) := rfl
        rw [h34]
        cases h4x : (step3 { env with wpCli := false, wpPotTemp := false, wpPotDirect := false } s1 >>=
            step4 { env with wpCli := false, wpPotTemp := false, wpPotDirect := false }) with
        | error e => rfl
        | ok m4 =>
          rw [ok_bind, ok_bind]
          have h5 : step5 { env with wpCli := true, wpPotTemp := false, wpPotDirect := false } m4 =
              step5 { env with wpCli := false, wpPotTemp := false, wpPotDirect := false } m4 := rfl
          rw [h5]
          have hA : step5b { env with wpCli := true, wpPotTemp := false, wpPotDirect := false }
              (step5 { env with wpCli := false, wpPotTemp := false, wpPotDirect := false } m4) =
              { step5 { env with wpCli := false, wpPotTemp := false, wpPotDirect := false } m4 with
                  log := potFailMsg ::
                    (step5 { env with wpCli := false, wpPotTemp := false, wpPotDirect := false } m4).log } := by
            unfold step5b
            rw [if_pos rfl]
            cases hsb : (step5 { env with wpCli := false, wpPotTemp := false, wpPotDirect := false } m4).build with
            | none => simp only [hsb]
            | some bs =>
              simp only [hsb]
              rw [if_neg (by simp), if_neg (by simp)]
          have hB : step5b { env with wpCli := false, wpPotTemp := false, wpPotDirect := false }
              (step5 { env with wpCli := false, wpPotTemp := false, wpPotDirect := false } m4) =
              { step5 { env with wpCli := false, wpPotTemp := false, wpPotDirect := false } m4 with
                  log := wpSkipMsg ::
                    (step5 { env with wpCli := false, wpPotTemp := false, wpPotDirect := false } m4).log } := by
            unfold step5b
            rw [if_neg (by simp)]
          rw [hA, hB]
          have h6AB : step6 { env with wpCli := true, wpPotTemp := false, wpPotDirect := false } =
              step6 { env with wpCli := false, wpPotTemp := false, wpPotDirect := false } := rfl
          have h7AB : step7 { env with wpCli := true, wpPotTemp := false, wpPotDirect := false } =
              step7 { env with wpCli := false, wpPotTemp := false, wpPotDirect := false } := rfl
          rw [h6AB, h7AB]
          apply isOk_bind_step7
          exact step6_isOk_view rfl rfl rfl

theorem claim8_witness :
    (step5b { wEnvWarn with wpCli := false } wSt =
      { wSt with log := wpSkipMsg :: wSt.log }) ∧
    (step5b { wEnvWarn with wpCli := true, wpPotTemp := false, wpPotDirect := false } wSt =
      { wSt with log := potFailMsg :: wSt.log }) ∧
    ((run { wEnvWarn with wpCli := true, wpPotTemp := false, wpPotDirect := false }).isOk =
      (run { wEnvWarn with wpCli := false, wpPotTemp := false, wpPotDirect := false }).isOk) :=
  ⟨(claim8 { wEnvWarn with wpCli := false } wSt).1 rfl,
   (claim8 { wEnvWarn with wpCli := true, wpPotTemp := false, wpPotDirect := false } wSt).2.1
     rfl rfl rfl,
   (claim8 wEnvWarn wSt).2.2 true false false (Or.inr ⟨rfl, rfl⟩)⟩

/-- C6: the production archive nests everything under a single top-level
`buddypress/` folder on both paths — grunt's compress:production target
(conjunct 1) and the manual fallback zip of the renamed build directory
(conjunct 2) — and in every successful run each entry of the archive named
`buddypress-$VERSION.zip` is of the form `buddypress/<file>` (conjunct 3),
so extracting it yields one `buddypress` directory installable without a
rename. -/
theorem claim6 {env : Env} {st : St} (h : run env = .ok st) :
    (∀ (bf : List String) (e : String), e ∈ grunt_prodEntries bf →
      ∃ f, f ∈ bf ∧ e = "buddypress/" ++ f) ∧
    (∀ (bf : List String) (e : String), e ∈ manualZipEntries bf →
      ∃ f, e = "buddypress/" ++ f) ∧
    (∀ es, (zipName st.version, es) ∈ st.zips →
      ∀ e ∈ es, ∃ f, e = "buddypress/" ++ f) := by
  obtain ⟨hv, mz, hz, hmz, hmem⟩ := run_okInv h
  refine ⟨?_, ?_, ?_⟩
  · intro bf e he
    rcases List.mem_map.1 he with ⟨f, hf, hfe⟩
    exact ⟨f, hf, hfe.symm⟩
  · intro bf e he
    have he2 := List.mem_of_mem_filter he
    rcases List.mem_map.1 he2 with ⟨f, _, hfe⟩
    exact ⟨f, hfe.symm⟩
  · intro es hes e hee
    rw [hz] at hes
    rcases List.mem_append.1 hes with hin | hin
    · exact absurd (List.mem_map_of_mem Prod.fst hin)
        (not_mem_cleanZips (matchesZipGlob_zipName st.version))
    · rcases List.mem_append.1 hin with hin | hin
      · unfold gruntZips at hin
        split at hin
        · rw [List.mem_singleton] at hin
          have hes2 : es = grunt_prodEntries (env.gruntBuild.getD []) :=
            congrArg Prod.snd hin
          rw [hes2] at hee
          rcases List.mem_map.1 hee with ⟨f, _, hfe⟩
          exact ⟨f, hfe.symm⟩
        · simp at hin
      · rcases List.mem_append.1 hin with hin | hin
        · rcases hmz with rfl | ⟨bs, rfl⟩
          · simp at hin
          · rw [List.mem_singleton] at hin
            have hes2 : es = manualZipEntries bs := congrArg Prod.snd hin
            rw [hes2] at hee
            have hee2 := List.mem_of_mem_filter hee
            rcases List.mem_map.1 hee2 with ⟨f, _, hfe⟩
            exact ⟨f, hfe.symm⟩
        · rw [List.mem_singleton] at hin
          have heq : zipName st.version = devZipName st.version := congrArg Prod.fst hin
          exact absurd heq.symm (devZipName_ne_zipName_self st.version)

theorem claim6_witness :
    (∃ f, f ∈ (["a.php"] : List String) ∧ "buddypress/a.php" = "buddypress/" ++ f) ∧
    (∃ f, ("buddypress/a.php" : String) = "buddypress/" ++ f) ∧
    (∃ f, ("buddypress/a.php" : String) = "buddypress/" ++ f) := by
  have hc := @claim6 wEnvManual (finalSt (run wEnvManual)) (by rfl)
  exact ⟨hc.1 ["a.php"] "buddypress/a.php" (by decide),
         hc.2.1 ["a.php"] "buddypress/a.php" (by decide),
         hc.2.2 (manualZipEntries ["a.php", "bp-loader.php"]) (by decide)
           "buddypress/a.php" (by decide)⟩

/-- C7: every successful run produces the development archive from the
root tree filtered by the fixed `-x` exclusion set, and that filter
excludes every path under `node_modules/` and under `build/` (conjunct 2);
the Gruntfile's development target likewise excludes every path rooted at
`node_modules` or `build` (conjunct 3). -/
theorem claim7 {env : Env} {st : St} (h : run env = .ok st) :
    ((devZipName st.version, shellDevEntries env.rootListing) ∈ st.zips) ∧
    (∀ r : String, ("node_modules/" ++ r) ∉ shellDevEntries env.rootListing ∧
                   ("build/" ++ r) ∉ shellDevEntries env.rootListing) ∧
    (∀ (tree : List (List String)) (p : List String),
      ("node_modules" :: p) ∉ grunt_devFiles tree ∧
      ("build" :: p) ∉ grunt_devFiles tree) := by
  obtain ⟨hv, mz, hz, hmz, hmem⟩ := run_okInv h
  refine ⟨?_, ?_, ?_⟩
  · rw [hz]
    simp
  · intro r
    constructor
    · intro hmem2
      have hq := (List.mem_filter.1 hmem2).2
      rw [devExcl_node r] at hq
      exact absurd hq (by simp)
    · intro hmem2
      have hq := (List.mem_filter.1 hmem2).2
      rw [devExcl_build r] at hq
      exact absurd hq (by simp)
  · intro tree p
    constructor
    · intro hmem2
      have hq := (List.mem_filter.1 hmem2).2
      rw [grunt_devIncluded_node p] at hq
      exact Bool.noConfusion hq
    · intro hmem2
      have hq := (List.mem_filter.1 hmem2).2
      rw [grunt_devIncluded_build p] at hq
      exact Bool.noConfusion hq

theorem claim7_witness :
    ((devZipName (finalSt (run wEnvManual)).version,
        shellDevEntries wEnvManual.rootListing) ∈ (finalSt (run wEnvManual)).zips) ∧
    ("node_modules/x.js" ∉ shellDevEntries wEnvManual.rootListing) ∧
    ("build/a.php" ∉ shellDevEntries wEnvManual.rootListing) ∧
    (["node_modules", "x.js"] ∉ grunt_devFiles [["src", "a.php"], ["node_modules", "x.js"]]) := by
  have hc := @claim7 wEnvManual (finalSt (run wEnvManual)) (by rfl)
  exact ⟨hc.1, (hc.2.1 "x.js").1, (hc.2.1 "a.php").2,
         (hc.2.2 [["src", "a.php"], ["node_modules", "x.js"]] ["x.js"]).1⟩

/-- C10: the two development-archive implementations disagree on layout.
The shell zip stores each project file under its own relative path with no
wrapper folder (conjunct 1, and concretely conjunct 3: two files extract
as two separate top-level entries, spilling into the current directory);
the Gruntfile's development target nests every entry under a single
`buddypress-dev/` top-level folder (conjuncts 2 and 4). -/
theorem claim10 :
    (∀ (tree : List String) (e : String), e ∈ shellDevEntries tree → e ∈ tree) ∧
    (∀ (tree : List (List String)) (p : List String), p ∈ grunt_devEntries tree →
      ∃ q, q ∈ grunt_devFiles tree ∧ p = "buddypress-dev" :: q) ∧
    shellDevEntries ["src/loader.php", "readme.txt"] = ["src/loader.php", "readme.txt"] ∧
    grunt_devEntries [["src", "loader.php"], ["readme.txt"]] =
      [["buddypress-dev", "src", "loader.php"], ["buddypress-dev", "readme.txt"]] := by
  refine ⟨?_, ?_, by decide, by decide⟩
  · intro tree e he
    exact List.mem_of_mem_filter he
  · intro tree p hp
    rcases List.mem_map.1 hp with ⟨q, hq, hpq⟩
    exact ⟨q, hq, hpq.symm⟩

theorem claim10_witness :
    ("src/loader.php" ∈ (["src/loader.php", "readme.txt"] : List String)) ∧
    (∃ q, q ∈ grunt_devFiles [["src", "loader.php"]] ∧
      ["buddypress-dev", "src", "loader.php"] = "buddypress-dev" :: q) :=
  ⟨claim10.1 ["src/loader.php", "readme.txt"] "src/loader.php" (by decide),
   claim10.2.1 [["src", "loader.php"]] ["buddypress-dev", "src", "loader.php"] (by decide)⟩

theorem claim9_witness :
    (wEnvCopy.fbCleanCode = 0 ∧ wEnvCopy.fbCopyCode = 0 ∧ wEnvCopy.fbUglifyCode = 0 ∧
      wEnvCopy.fbCssminCode = 0 ∧ emptyish wEnvCopy.fbBuild = true ∧
      emptyish wEnvCopy.gruntBuild = true) ∧
    (∃ c st, run wEnvFbFail = .error (c, st) ∧ ¬(c = 0) ∧ st.copiedSrc = false) :=
  ⟨(claim9 wEnvCopy).1 (by decide),
   (claim9 wEnvFbFail).2 (Or.inl rfl) (Or.inl rfl) (Or.inl rfl) rfl rfl (by decide)⟩

end BPRelease
